import Mathlib

/-!
Verification of the uk-houseprice-heatmap postcode lookup and district
aggregation against its specification.

Strings are modelled as `List Char`; machine floats of the source are
modelled as exact rationals (`ℚ`), so arithmetic claims are settled over
exact arithmetic.  A Python `None` input is the `none` of an `Option`;
a fallible operation returns an `Option`, with `none` for "not found"
(or, where noted, an uncaught exception).
-/

/-- Python whitespace characters recognised by `str.strip` and `str.split`
(space, tab, newline, carriage return, vertical tab, form feed). -/
def pyIsSpace (c : Char) : Bool :=
  c = ' ' || c = '\t' || c = '\n' || c = '\r' || c = '\x0b' || c = '\x0c'

/-- ASCII uppercasing of one character, as Python's `str.upper` acts on the
ASCII range (the only range postcode data uses); written as an explicit
table so that its interaction with `pyIsSpace` is transparent. -/
def pyToUpper (c : Char) : Char :=
  match c with
  | 'a' => 'A' | 'b' => 'B' | 'c' => 'C' | 'd' => 'D' | 'e' => 'E'
  | 'f' => 'F' | 'g' => 'G' | 'h' => 'H' | 'i' => 'I' | 'j' => 'J'
  | 'k' => 'K' | 'l' => 'L' | 'm' => 'M' | 'n' => 'N' | 'o' => 'O'
  | 'p' => 'P' | 'q' => 'Q' | 'r' => 'R' | 's' => 'S' | 't' => 'T'
  | 'u' => 'U' | 'v' => 'V' | 'w' => 'W' | 'x' => 'X' | 'y' => 'Y'
  | 'z' => 'Z'
  | c => c

/-- Python `str.strip()`: drop leading and trailing whitespace. -/
def pyStrip (s : List Char) : List Char :=
  ((s.dropWhile pyIsSpace).reverse.dropWhile pyIsSpace).reverse

/-- Python `str.upper()` on a string. -/
def pyUpper (s : List Char) : List Char :=
  s.map pyToUpper

/-- Python `str.replace(' ', '')`: remove every space character
(only the space `U+0020`, as in the source). -/
def removeSpaces (s : List Char) : List Char :=
  s.filter (fun c => !(c = ' '))

/-- `postcode.strip().upper().replace(' ', '')`
(postcode_dataset.py line 165). -/
def cleanPostcode (s : List Char) : List Char :=
  removeSpaces (pyUpper (pyStrip s))

/-- A latitude/longitude pair (floats of the source, exact rationals here). -/
abbrev Coord : Type := ℚ × ℚ

/-- The preloaded postcode→coordinate mapping (`self.postcode_dict`),
modelled as an association list with the lookup below; a Python dict has
unique keys, which first-match lookup subsumes. -/
abbrev PostcodeDict : Type := List (List Char × Coord)

/-- Dict membership/lookup: `d[k]` when `k in d`, else `none`. -/
def dictGet (d : PostcodeDict) (k : List Char) : Option Coord :=
  match d with
  | [] => none
  | (k', v) :: rest => if k = k' then some v else dictGet rest k

/-- `clean[:-j] + ' ' + clean[-j:]`: re-insert a space `j` characters from
the end (postcode_dataset.py lines 175-176). -/
def spaceVariant (j : Nat) (s : List Char) : List Char :=
  s.take (s.length - j) ++ ' ' :: s.drop (s.length - j)

namespace UKPostcodeDataset

/-- `UKPostcodeDataset.get_coordinates` (postcode_dataset.py lines 157-183):
`None` or empty input is falsy and returns `None`; otherwise normalize,
try an exact match, and only when the cleaned string has at least 5
characters try the space-3-from-the-end variant then the
space-2-from-the-end variant. -/
def get_coordinates (d : PostcodeDict) (postcode : Option (List Char)) :
    Option Coord :=
  match postcode with
  | none => none
  | some p =>
    if p = [] then none
    else
      let c := cleanPostcode p
      match dictGet d c with
      | some v => some v
      | none =>
        if 5 ≤ c.length then
          match dictGet d (spaceVariant 3 c) with
          | some v => some v
          | none => dictGet d (spaceVariant 2 c)
        else none

end UKPostcodeDataset

-- sanity checks of the embedding on concrete data
example :
    UKPostcodeDataset.get_coordinates
      [([ 'N', '2', ' ', '9', 'Q', 'L' ], ((3 : ℚ), (4 : ℚ)))]
      (some [ 'n', '2', '9', 'q', 'l' ]) = some (3, 4) := by decide

example :
    UKPostcodeDataset.get_coordinates
      [([ 'N', '2', '9', 'Q', 'L' ], ((3 : ℚ), (4 : ℚ)))]
      (some [ ' ', 'N', '2', ' ', '9', 'Q', 'L', ' ' ]) = some (3, 4) := by
  decide

example :
    UKPostcodeDataset.get_coordinates
      [([ 'N', '2', '9', ' ', 'Q', 'L' ], ((3 : ℚ), (4 : ℚ)))]
      (some [ 'N', '2', '9', 'Q', 'L' ]) = some (3, 4) := by decide

example :
    UKPostcodeDataset.get_coordinates
      [([ 'N', '2', '9', 'Q', 'L' ], ((3 : ℚ), (4 : ℚ)))]
      (some [ 'X', 'X', '1', '1', 'X' ]) = none := by decide

example :
    UKPostcodeDataset.get_coordinates
      [([ 'A', ' ', 'B', '1', '2' ], ((1 : ℚ), (2 : ℚ)))]
      (some [ 'A', 'B', '1', '2' ]) = none := by decide

/-- An uppercase ASCII letter, the regex class `[A-Z]`. -/
def isUpperAlpha (c : Char) : Bool :=
  'A' ≤ c && c ≤ 'Z'

/-- An ASCII digit, the regex class `\d` on this data. -/
def isDigitChar (c : Char) : Bool :=
  '0' ≤ c && c ≤ '9'

/-- Python `str.split()` with no argument: split on runs of whitespace,
discarding empty pieces.  Written with an accumulator for the current word
(reversed) so the recursion is structural. -/
def pySplitAux : List Char → List Char → List (List Char)
  | [], acc => if acc = [] then [] else [acc.reverse]
  | c :: cs, acc =>
    if pyIsSpace c then
      if acc = [] then pySplitAux cs [] else acc.reverse :: pySplitAux cs []
    else pySplitAux cs (c :: acc)

/-- Python `str.split()` with no argument. -/
def pySplit (s : List Char) : List (List Char) :=
  pySplitAux s []

/-- One attempt of the regex `^([A-Z]{1,2}\d{1,2}[A-Z]?)` with a fixed
number `k` of leading letters: `k` letters, then one or two digits
(greedy), then at most one letter.  Returns the matched prefix. -/
def tryDistrict (k : Nat) (s : List Char) : Option (List Char) :=
  let letters := s.take k
  if letters.length = k && letters.all isUpperAlpha then
    let rest := s.drop k
    let digits := (rest.takeWhile isDigitChar).take 2
    if 1 ≤ digits.length then
      let opt :=
        match rest.drop digits.length with
        | [] => ([] : List Char)
        | c :: _ => if isUpperAlpha c then [c] else []
      some (letters ++ digits ++ opt)
    else none
  else none

/-- `re.match(r'^([A-Z]{1,2}\d{1,2}[A-Z]?)', s)`, returning `group(1)`
(the whole match).  The greedy `{1,2}` on the letters tries two letters
first and backtracks to one; the later parts never force further
backtracking (`\d{1,2}` greedy is final because `[A-Z]?` always
succeeds). -/
def regexDistrict (s : List Char) : Option (List Char) :=
  match tryDistrict 2 s with
  | some r => some r
  | none => tryDistrict 1 s

/-- `extract_postcode_district` (dash_app.py lines 210-222 and
heatmap_generator.py lines 34-46): `None`/NaN or empty is rejected, the
input is stripped, uppercased and split on whitespace, and the district
regex is matched against the first token. -/
def extract_postcode_district (postcode : Option (List Char)) :
    Option (List Char) :=
  match postcode with
  | none => none
  | some p =>
    if p = [] then none
    else
      match pySplit (pyUpper (pyStrip p)) with
      | [] => none
      | t :: _ => regexDistrict t

example :
    extract_postcode_district
      (some [ 'S', 'W', '1', 'A', ' ', '1', 'A', 'A' ]) =
      some [ 'S', 'W', '1', 'A' ] := by decide

example :
    extract_postcode_district (some [ 'n', '2', ' ', '9', 'q', 'l' ]) =
      some [ 'N', '2' ] := by decide

example :
    extract_postcode_district (some [ 'A', 'B', 'C', '1' ]) = none := by
  decide

example :
    extract_postcode_district (some [ 'A', '1', '2', '3', '4' ]) =
      some [ 'A', '1', '2' ] := by decide

/-- A loaded price record at aggregation time: `postcode`, `priceper`,
`lat`, `lon`, `area` columns of the dataframe handed to the district
aggregation (coordinates are present, `load_data` dropped the rest). -/
structure HRec where
  postcode : Option (List Char)
  priceper : ℚ
  lat : ℚ
  lon : ℚ
  area : List Char
deriving DecidableEq

/-- A row of the aggregated district dataframe after the column flattening
(dash_app.py line 236, heatmap_generator.py line 131). -/
structure DistrictAggregate where
  postcode_district : List Char
  avg_price : ℚ
  property_count : ℕ
  lat : ℚ
  lon : ℚ
  area : List Char
deriving DecidableEq

/-- The district key of a record, as the aggregation computes it. -/
def districtOf (r : HRec) : Option (List Char) :=
  extract_postcode_district r.postcode

/-- The distinct district keys of a record list, in first-seen order.
`pandas.groupby` drops rows whose key is NaN (`None` district) and sorts
the keys; the claims do not depend on the order of the groups, only on
their set and on the row order inside each group. -/
def districtKeys (rs : List HRec) : List (List Char) :=
  (rs.filterMap districtOf).dedup

/-- The rows of one district group, in original row order. -/
def groupRecs (rs : List HRec) (d : List Char) : List HRec :=
  rs.filter (fun r => districtOf r = some d)

/-- One row of the `groupby(...).agg(...)` result: mean of `priceper`,
count, mean of `lat`, mean of `lon`, first `area` (dash_app.py lines
228-236, heatmap_generator.py lines 123-131). -/
def mkAggregate (d : List Char) (g : List HRec) : DistrictAggregate :=
  { postcode_district := d
    avg_price := (g.map HRec.priceper).sum / (g.length : ℚ)
    property_count := g.length
    lat := (g.map HRec.lat).sum / (g.length : ℚ)
    lon := (g.map HRec.lon).sum / (g.length : ℚ)
    area := match g with | [] => [] | r :: _ => r.area }

/-- The full aggregated dataframe, one row per district key. -/
def aggregateDistricts (rs : List HRec) : List DistrictAggregate :=
  (districtKeys rs).map (fun d => mkAggregate d (groupRecs rs d))

/-- The emitted district aggregates:
`district_df = district_df[district_df['property_count'] >= 3]`
(dash_app.py line 239, heatmap_generator.py line 134). -/
def prepareDistricts (rs : List HRec) : List DistrictAggregate :=
  (aggregateDistricts rs).filter (fun a => 3 ≤ a.property_count)

/-- The fixed Central London fallback coordinate `(51.5074, -0.1278)`,
as the exact rationals `515074/10000` and `-1278/10000`. -/
def londonFallback : Coord :=
  (mkRat 515074 10000, mkRat (-1278) 10000)

/-- The dashboard / heatmap-generator object after `__init__`:
`postcode_geocoder` is `None` when `load_postcode_data()` failed
(dash_app.py lines 20-25, heatmap_generator.py lines 17-24), otherwise it
holds the loaded mapping. -/
structure UKHousePriceDashboard where
  postcode_geocoder : Option PostcodeDict
deriving DecidableEq

/-- `UKHousePriceDashboard.get_coordinates` (dash_app.py lines 27-33,
identically heatmap_generator.py lines 26-32): delegate to the dataset
when it loaded, otherwise return the fixed Central London fallback for
every input. -/
def UKHousePriceDashboard.get_coordinates (db : UKHousePriceDashboard)
    (postcode : Option (List Char)) : Option Coord :=
  match db.postcode_geocoder with
  | some d => UKPostcodeDataset.get_coordinates d postcode
  | none => some londonFallback

/-- A raw record before coordinates are attached (after the CSV filters). -/
structure RawRec where
  postcode : Option (List Char)
  priceper : ℚ
  area : List Char
deriving DecidableEq

/-- The per-record coordinate step of `load_data` (dash_app.py lines
80-92, heatmap_generator.py lines 92-104): a record keeps its looked-up
coordinate only when the lookup returned one different from the fixed
fallback; otherwise it gets `(None, None)` and `dropna` removes it. -/
def keepRecord (db : UKHousePriceDashboard) (r : RawRec) : Option HRec :=
  match db.get_coordinates r.postcode with
  | none => none
  | some c =>
    if c = londonFallback then none
    else some ⟨r.postcode, r.priceper, c.1, c.2, r.area⟩

/-- The coordinate-attachment and row-dropping part of `load_data`. -/
def load_data_records (db : UKHousePriceDashboard) (rs : List RawRec) :
    List HRec :=
  rs.filterMap (keepRecord db)

/-- A pandas dataframe as `geocode_dataframe` sees it: the postcode
column, an opaque payload standing for every other pre-existing column,
and the `lat`/`lon` columns (`none` when the column is absent). -/
structure PyFrame (α : Type) where
  postcode : List (Option (List Char))
  rest : α
  lat : Option (List (Option ℚ))
  lon : Option (List (Option ℚ))
deriving DecidableEq

namespace UKPostcodeDataset

/-- `UKPostcodeDataset.geocode_dataframe` (postcode_dataset.py lines
185-211): with an empty mapping the dataframe is returned unchanged; with
rows present, the `lat` and `lon` columns are set from the per-row lookup
(`(None, None)` on a miss); with a nonempty mapping and zero rows the
success-rate print divides by `len(df) = 0` and the call raises
(modelled as `none`). -/
def geocode_dataframe {α : Type} (d : PostcodeDict) (df : PyFrame α) :
    Option (PyFrame α) :=
  if d = [] then some df
  else
    let coords := df.postcode.map (fun p => get_coordinates d p)
    if df.postcode.length = 0 then none
    else
      some { df with
        lat := some (coords.map (fun oc => oc.map Prod.fst))
        lon := some (coords.map (fun oc => oc.map Prod.snd)) }

end UKPostcodeDataset

/-- Decompose membership in the emitted aggregates: an emitted row is the
aggregate of the group of one of the district keys. -/
theorem mem_prepareDistricts {rs : List HRec} {a : DistrictAggregate}
    (h : a ∈ prepareDistricts rs) :
    ∃ d ∈ districtKeys rs, a = mkAggregate d (groupRecs rs d) := by
  unfold prepareDistricts aggregateDistricts at h
  have h1 := (List.mem_filter.mp h).1
  obtain ⟨d, hd, hda⟩ := List.mem_map.mp h1
  exact ⟨d, hd, hda.symm⟩

/-- The group of a district key is nonempty: the key came from a record. -/
theorem groupRecs_ne_nil {rs : List HRec} {d : List Char}
    (hd : d ∈ districtKeys rs) : groupRecs rs d ≠ [] := by
  unfold districtKeys at hd
  rw [List.mem_dedup] at hd
  obtain ⟨r, hr, hdr⟩ := List.mem_filterMap.mp hd
  intro hnil
  have hmem : r ∈ groupRecs rs d := by
    unfold groupRecs
    rw [List.mem_filter]
    exact ⟨hr, by simp [hdr]⟩
  rw [hnil] at hmem
  exact (List.not_mem_nil r) hmem

/-- A three-record fixture, all in district `N2`. -/
def n2recs : List HRec :=
  [⟨some [ 'N', '2', ' ', '9', 'Q', 'L' ], 1, 10, 20, [ 'L', 'o', 'n' ]⟩,
   ⟨some [ 'N', '2', ' ', '9', 'Q', 'L' ], 2, 11, 21, [ 'L', 'o', 'n' ]⟩,
   ⟨some [ 'N', '2', ' ', '9', 'Q', 'L' ], 4, 12, 22, [ 'B', 'a', 'r' ]⟩]

/-- C3: an input whose normalized form and both spacing variants are
absent from the mapping yields `none`, and so do the `None` input and the
empty string; the embedded lookup is a total function, so no exception is
possible. -/
theorem get_coordinates_absent (d : PostcodeDict) :
    UKPostcodeDataset.get_coordinates d none = none ∧
    UKPostcodeDataset.get_coordinates d (some []) = none ∧
    ∀ s : List Char,
      dictGet d (cleanPostcode s) = none →
      dictGet d (spaceVariant 3 (cleanPostcode s)) = none →
      dictGet d (spaceVariant 2 (cleanPostcode s)) = none →
      UKPostcodeDataset.get_coordinates d (some s) = none := by
  refine ⟨rfl, rfl, ?_⟩
  intro s h1 h2 h3
  unfold UKPostcodeDataset.get_coordinates
  simp only [h1, h2, h3]
  split <;> simp [h1, h2, h3]

/-- Witness for C3 at a concrete mapping and input. -/
theorem get_coordinates_absent_witness :
    UKPostcodeDataset.get_coordinates
      [([ 'N', '2', '9', 'Q', 'L' ], ((3 : ℚ), (4 : ℚ)))]
      (some [ 'Z', 'Z', '9', 'A', 'A' ]) = none :=
  (get_coordinates_absent
      [([ 'N', '2', '9', 'Q', 'L' ], ((3 : ℚ), (4 : ℚ)))]).2.2
    [ 'Z', 'Z', '9', 'A', 'A' ] (by decide) (by decide) (by decide)

/-- C4: every emitted district aggregate has `property_count ≥ 3`; the
aggregation filters the rest out. -/
theorem prepareDistricts_count_ge_three (rs : List HRec)
    (a : DistrictAggregate) (h : a ∈ prepareDistricts rs) :
    3 ≤ a.property_count := by
  have h2 := (List.mem_filter.mp h).2
  simpa using h2

/-- Witness for C4 on the three-record fixture. -/
theorem prepareDistricts_count_ge_three_witness :
    3 ≤ (mkAggregate [ 'N', '2' ] (groupRecs n2recs [ 'N', '2' ])).property_count :=
  prepareDistricts_count_ge_three n2recs
    (mkAggregate [ 'N', '2' ] (groupRecs n2recs [ 'N', '2' ]))
    (List.mem_filter.mpr
      ⟨List.mem_map.mpr ⟨[ 'N', '2' ], by decide, rfl⟩, by decide⟩)

/-- C5: the emitted `avg_price` of a district is the sum of the member
records' `priceper` divided by the number of members. -/
theorem prepareDistricts_avg_price (rs : List HRec) (a : DistrictAggregate)
    (h : a ∈ prepareDistricts rs) :
    a.avg_price =
      ((groupRecs rs a.postcode_district).map HRec.priceper).sum /
        ((groupRecs rs a.postcode_district).length : ℚ) ∧
    a.property_count = (groupRecs rs a.postcode_district).length := by
  obtain ⟨d, hd, rfl⟩ := mem_prepareDistricts h
  exact ⟨rfl, rfl⟩

/-- Witness for C5 on the three-record fixture: mean `(1+2+4)/3 = 7/3`. -/
theorem prepareDistricts_avg_price_witness :
    (mkAggregate [ 'N', '2' ] (groupRecs n2recs [ 'N', '2' ])).avg_price =
      ((groupRecs n2recs
          (mkAggregate [ 'N', '2' ]
            (groupRecs n2recs [ 'N', '2' ])).postcode_district).map
        HRec.priceper).sum /
      ((groupRecs n2recs
          (mkAggregate [ 'N', '2' ]
            (groupRecs n2recs [ 'N', '2' ])).postcode_district).length : ℚ) :=
  (prepareDistricts_avg_price n2recs
    (mkAggregate [ 'N', '2' ] (groupRecs n2recs [ 'N', '2' ]))
    (List.mem_filter.mpr
      ⟨List.mem_map.mpr ⟨[ 'N', '2' ], by decide, rfl⟩, by decide⟩)).1

/-- C6: the emitted centroid is the component-wise mean of the member
records' coordinates, and the emitted area label is the area of the first
record of the group. -/
theorem prepareDistricts_centroid_area (rs : List HRec)
    (a : DistrictAggregate) (h : a ∈ prepareDistricts rs) :
    a.lat =
      ((groupRecs rs a.postcode_district).map HRec.lat).sum /
        ((groupRecs rs a.postcode_district).length : ℚ) ∧
    a.lon =
      ((groupRecs rs a.postcode_district).map HRec.lon).sum /
        ((groupRecs rs a.postcode_district).length : ℚ) ∧
    (groupRecs rs a.postcode_district).head?.map HRec.area = some a.area := by
  obtain ⟨d, hd, rfl⟩ := mem_prepareDistricts h
  refine ⟨rfl, rfl, ?_⟩
  obtain ⟨r, t, hg⟩ : ∃ r t, groupRecs rs d = r :: t := by
    cases hgr : groupRecs rs d with
    | nil => exact absurd hgr (groupRecs_ne_nil hd)
    | cons r t => exact ⟨r, t, rfl⟩
  have hpd : (mkAggregate d (groupRecs rs d)).postcode_district = d := rfl
  rw [hpd, hg]
  simp [mkAggregate]

/-- Witness for C6 on the three-record fixture. -/
theorem prepareDistricts_centroid_area_witness :
    (mkAggregate [ 'N', '2' ] (groupRecs n2recs [ 'N', '2' ])).lat =
      ((groupRecs n2recs
          (mkAggregate [ 'N', '2' ]
            (groupRecs n2recs [ 'N', '2' ])).postcode_district).map
        HRec.lat).sum /
      ((groupRecs n2recs
          (mkAggregate [ 'N', '2' ]
            (groupRecs n2recs [ 'N', '2' ])).postcode_district).length : ℚ) ∧
    (mkAggregate [ 'N', '2' ] (groupRecs n2recs [ 'N', '2' ])).lon =
      ((groupRecs n2recs
          (mkAggregate [ 'N', '2' ]
            (groupRecs n2recs [ 'N', '2' ])).postcode_district).map
        HRec.lon).sum /
      ((groupRecs n2recs
          (mkAggregate [ 'N', '2' ]
            (groupRecs n2recs [ 'N', '2' ])).postcode_district).length : ℚ) ∧
    (groupRecs n2recs
        (mkAggregate [ 'N', '2' ]
          (groupRecs n2recs [ 'N', '2' ])).postcode_district).head?.map
      HRec.area =
      some (mkAggregate [ 'N', '2' ] (groupRecs n2recs [ 'N', '2' ])).area :=
  prepareDistricts_centroid_area n2recs
    (mkAggregate [ 'N', '2' ] (groupRecs n2recs [ 'N', '2' ]))
    (List.mem_filter.mpr
      ⟨List.mem_map.mpr ⟨[ 'N', '2' ], by decide, rfl⟩, by decide⟩)

/-- C8: when the postcode dataset failed to load, the dashboard's lookup
returns the fixed Central London fallback for every input; the embedded
lookup is a pure function of the failed state, so no retry can occur. -/
theorem dashboard_get_coordinates_fallback (db : UKHousePriceDashboard)
    (h : db.postcode_geocoder = none) (p : Option (List Char)) :
    db.get_coordinates p = some londonFallback := by
  cases db with
  | mk g =>
    cases h
    rfl

/-- Witness for C8 at a concrete failed dashboard and input. -/
theorem dashboard_get_coordinates_fallback_witness :
    (UKHousePriceDashboard.mk none).get_coordinates
      (some [ 'N', '2', ' ', '9', 'Q', 'L' ]) = some londonFallback :=
  dashboard_get_coordinates_fallback (UKHousePriceDashboard.mk none) rfl
    (some [ 'N', '2', ' ', '9', 'Q', 'L' ])

/-- C9: a postcode whose lookup returns `none` or exactly the fixed
fallback coordinate appears in no loaded record — in particular a postcode
genuinely mapped to exactly `(51.5074, -0.1278)` is discarded even though
its lookup succeeded. -/
theorem load_data_drops_fallback (db : UKHousePriceDashboard)
    (rs : List RawRec) (p : Option (List Char))
    (h : db.get_coordinates p = none ∨
         db.get_coordinates p = some londonFallback) :
    p ∉ (load_data_records db rs).map HRec.postcode := by
  intro hmem
  obtain ⟨x, hx, hpx⟩ := List.mem_map.mp hmem
  obtain ⟨r, _, hkr⟩ := List.mem_filterMap.mp hx
  unfold keepRecord at hkr
  revert hkr
  cases hc : db.get_coordinates r.postcode with
  | none => simp
  | some c =>
    simp only
    split
    · simp
    · intro hkr
      have hxp : x.postcode = r.postcode := by
        cases hkr
        rfl
      rw [← hpx, hxp, hc] at h
      rcases h with h | h
      · exact Option.noConfusion h
      · have : c = londonFallback := by
          cases h
          rfl
        contradiction

/-- Witness for C9: a mapping that sends a postcode exactly to the
fallback coordinate; the record with that postcode is dropped. -/
theorem load_data_drops_fallback_witness :
    some [ 'N', '2', '9', 'Q', 'L' ] ∉
      (load_data_records
        (UKHousePriceDashboard.mk
          (some [([ 'N', '2', '9', 'Q', 'L' ], londonFallback)]))
        [⟨some [ 'N', '2', '9', 'Q', 'L' ], 5, [ 'L', 'o', 'n' ]⟩]).map
        HRec.postcode :=
  load_data_drops_fallback
    (UKHousePriceDashboard.mk
      (some [([ 'N', '2', '9', 'Q', 'L' ], londonFallback)]))
    [⟨some [ 'N', '2', '9', 'Q', 'L' ], 5, [ 'L', 'o', 'n' ]⟩]
    (some [ 'N', '2', '9', 'Q', 'L' ])
    (Or.inr rfl)

/-- The lookup algorithm exactly as claim C1 words it (spec §4.1):
normalize, try an exact match, and on a miss always try the
space-3-from-the-end variant and then the space-2-from-the-end variant —
with no condition on the length of the normalized string. -/
def get_coordinates_as_claimed (d : PostcodeDict) (p : List Char) :
    Option Coord :=
  let c := cleanPostcode p
  match dictGet d c with
  | some v => some v
  | none =>
    match dictGet d (spaceVariant 3 c) with
    | some v => some v
    | none => dictGet d (spaceVariant 2 c)

/-- Counterexample to C1 as stated: for the four-character normalized
postcode `AB12` the code never tries the spacing variants, so a mapping
holding only the key `A B12` is missed, while the claimed algorithm finds
it. -/
theorem get_coordinates_claim_counterexample :
    UKPostcodeDataset.get_coordinates
      [([ 'A', ' ', 'B', '1', '2' ], (mkRat 1 1, mkRat 2 1))]
      (some [ 'A', 'B', '1', '2' ]) ≠
    get_coordinates_as_claimed
      [([ 'A', ' ', 'B', '1', '2' ], (mkRat 1 1, mkRat 2 1))]
      [ 'A', 'B', '1', '2' ] := by decide

/-- The lookup algorithm as amended: an empty (falsy) input returns
`none`, and the two spacing variants are candidates only when the
normalized string has at least five characters; the first candidate key
present in the mapping wins. -/
def get_coordinates_amended (d : PostcodeDict) (p : List Char) :
    Option Coord :=
  if p = [] then none
  else
    let c := cleanPostcode p
    let candidates :=
      if 5 ≤ c.length then [c, spaceVariant 3 c, spaceVariant 2 c] else [c]
    candidates.findSome? (fun k => dictGet d k)

/-- C1 (amended): the source lookup follows exactly the amended steps. -/
theorem get_coordinates_eq_amended (d : PostcodeDict) (p : List Char) :
    UKPostcodeDataset.get_coordinates d (some p) =
      get_coordinates_amended d p := by
  unfold UKPostcodeDataset.get_coordinates get_coordinates_amended
  by_cases hp : p = []
  · simp [hp]
  · simp only [if_neg hp]
    by_cases h5 : 5 ≤ (cleanPostcode p).length
    · simp only [if_pos h5]
      cases h1 : dictGet d (cleanPostcode p) with
      | some v => simp [List.findSome?, h1]
      | none =>
        cases h2 : dictGet d (spaceVariant 3 (cleanPostcode p)) with
        | some v => simp [List.findSome?, h1, h2]
        | none =>
          simp only [List.findSome?, h1, h2]
          cases dictGet d (spaceVariant 2 (cleanPostcode p)) <;> rfl
    · simp only [if_neg h5]
      cases h1 : dictGet d (cleanPostcode p) with
      | some v => simp [List.findSome?, h1]
      | none => simp [List.findSome?, h1]

/-- An uppercase letter is never a digit (the ranges `A`-`Z` and `0`-`9`
are disjoint), so the regex's letter/digit boundary is unambiguous. -/
theorem isUpperAlpha_not_isDigitChar {c : Char} (h : isUpperAlpha c = true) :
    isDigitChar c = false := by
  unfold isUpperAlpha at h
  unfold isDigitChar
  rw [Bool.and_eq_true, decide_eq_true_eq, decide_eq_true_eq] at h
  by_contra hdig
  rw [Bool.not_eq_false, Bool.and_eq_true, decide_eq_true_eq,
    decide_eq_true_eq] at hdig
  exact absurd (le_trans h.1 hdig.2) (by decide)

/-- The district rule exactly as claim C7 words it: the district is the
leading letters of the (normalized) postcode followed by its first digit
group; anything not of that shape has no district. -/
def district_as_claimed (postcode : Option (List Char)) :
    Option (List Char) :=
  match postcode with
  | none => none
  | some p =>
    if p = [] then none
    else
      match pySplit (pyUpper (pyStrip p)) with
      | [] => none
      | t :: _ =>
        let letters := t.takeWhile isUpperAlpha
        let digits := (t.drop letters.length).takeWhile isDigitChar
        if 1 ≤ letters.length && 1 ≤ digits.length then
          some (letters ++ digits)
        else none

/-- Counterexample to C7 as stated: on `SW1A 1AA` the source regex keeps
the optional sub-district letter and yields `SW1A`, while the claimed rule
(leading letters plus first digit group) yields `SW1`. -/
theorem extract_district_claim_counterexample :
    extract_postcode_district
      (some [ 'S', 'W', '1', 'A', ' ', '1', 'A', 'A' ]) ≠
    district_as_claimed
      (some [ 'S', 'W', '1', 'A', ' ', '1', 'A', 'A' ]) := by decide

/-- The district rule as amended: one or two leading letters, then the
first digit group truncated to at most two digits, then one further letter
when it immediately follows (the sub-district letter); three or more
leading letters, or no digit after them, give no district. -/
def districtLettersDigits (t : List Char) : Option (List Char) :=
  let letters := t.takeWhile isUpperAlpha
  let rest := t.drop letters.length
  let digits := (rest.takeWhile isDigitChar).take 2
  let opt :=
    match rest.drop digits.length with
    | [] => ([] : List Char)
    | c :: _ => if isUpperAlpha c then [c] else []
  if 1 ≤ letters.length && letters.length ≤ 2 && 1 ≤ digits.length then
    some (letters ++ digits ++ opt)
  else none

/-- The amended claim C7 applied to a full postcode value. -/
def district_amended (postcode : Option (List Char)) :
    Option (List Char) :=
  match postcode with
  | none => none
  | some p =>
    if p = [] then none
    else
      match pySplit (pyUpper (pyStrip p)) with
      | [] => none
      | t :: _ => districtLettersDigits t

/-- The backtracking regex match agrees with the amended district rule on
every token. -/
theorem regexDistrict_eq_districtLettersDigits (t : List Char) :
    regexDistrict t = districtLettersDigits t := by
  match t with
  | [] => rfl
  | [a] =>
    by_cases ha : isUpperAlpha a = true
    · simp [regexDistrict, tryDistrict, districtLettersDigits,
        List.takeWhile, ha]
    · simp [regexDistrict, tryDistrict, districtLettersDigits,
        List.takeWhile, ha]
  | a :: b :: t2 =>
    by_cases ha : isUpperAlpha a = true
    · by_cases hb : isUpperAlpha b = true
      · match t2 with
        | [] =>
          simp [regexDistrict, tryDistrict, districtLettersDigits,
            List.takeWhile, ha, hb, isUpperAlpha_not_isDigitChar ha,
            isUpperAlpha_not_isDigitChar hb]
        | c3 :: t3 =>
          by_cases hc : isUpperAlpha c3 = true
          · simp [regexDistrict, tryDistrict, districtLettersDigits,
              List.takeWhile, ha, hb, hc,
              isUpperAlpha_not_isDigitChar hb,
              isUpperAlpha_not_isDigitChar hc]
          · cases hdig : isDigitChar c3 with
            | true =>
              simp [regexDistrict, tryDistrict, districtLettersDigits,
                List.takeWhile, ha, hb, hc, hdig,
                isUpperAlpha_not_isDigitChar hb]
            | false =>
              simp [regexDistrict, tryDistrict, districtLettersDigits,
                List.takeWhile, ha, hb, hc, hdig,
                isUpperAlpha_not_isDigitChar hb]
      · simp [regexDistrict, tryDistrict, districtLettersDigits,
          List.takeWhile, ha, hb]
    · simp [regexDistrict, tryDistrict, districtLettersDigits,
        List.takeWhile, ha]

/-- C7 (amended): the aggregation's grouping key is the amended district
rule; missing or non-matching postcodes map to no district. -/
theorem extract_district_eq_amended (p : Option (List Char)) :
    extract_postcode_district p = district_amended p := by
  cases p with
  | none => rfl
  | some s =>
    unfold extract_postcode_district district_amended
    by_cases hs : s = []
    · simp [hs]
    · simp only [if_neg hs]
      cases pySplit (pyUpper (pyStrip s)) with
      | nil => rfl
      | cons t rest => exact regexDistrict_eq_districtLettersDigits t

/-- `geocode_dataframe` exactly as claim C10 words it: the row count, row
order and all pre-existing columns are kept, and the `lat`/`lon` columns
are set from the per-row lookup, `(None, None)` on a miss —
unconditionally. -/
def geocode_dataframe_as_claimed {α : Type} (d : PostcodeDict)
    (df : PyFrame α) : PyFrame α :=
  let coords := df.postcode.map (fun p => UKPostcodeDataset.get_coordinates d p)
  { df with
    lat := some (coords.map (fun oc => oc.map Prod.fst))
    lon := some (coords.map (fun oc => oc.map Prod.snd)) }

/-- Counterexample to C10 as stated: when the postcode mapping is empty
the source returns the dataframe unchanged, without adding the `lat` and
`lon` columns the claim promises. -/
theorem geocode_dataframe_claim_counterexample :
    UKPostcodeDataset.geocode_dataframe (α := Unit) []
      ⟨[some [ 'N', '2', '9', 'Q', 'L' ]], (), none, none⟩ ≠
    some (geocode_dataframe_as_claimed []
      ⟨[some [ 'N', '2', '9', 'Q', 'L' ]], (), none, none⟩) := by decide

/-- C10 (amended): when the mapping is nonempty and the dataframe has at
least one row, `geocode_dataframe` keeps the row count, the row order and
every pre-existing column, and sets `lat`/`lon` from the per-row lookup
with `(None, None)` on a miss (with an empty mapping it returns the
dataframe untouched, and with a nonempty mapping and zero rows the
success-rate print divides by zero and the call raises). -/
theorem geocode_dataframe_eq_amended {α : Type} (d : PostcodeDict)
    (df : PyFrame α) (hd : d ≠ []) (hrow : df.postcode ≠ []) :
    UKPostcodeDataset.geocode_dataframe d df =
      some (geocode_dataframe_as_claimed d df) := by
  unfold UKPostcodeDataset.geocode_dataframe geocode_dataframe_as_claimed
  rw [if_neg hd, if_neg (by simpa using hrow)]

/-- Witness for C10 (amended) at a one-row frame and a singleton mapping. -/
theorem geocode_dataframe_eq_amended_witness :
    UKPostcodeDataset.geocode_dataframe (α := Unit)
      [([ 'N', '2', '9', 'Q', 'L' ], (mkRat 3 1, mkRat 4 1))]
      ⟨[some [ 'N', '2', '9', 'Q', 'L' ]], (), none, none⟩ =
    some (geocode_dataframe_as_claimed
      [([ 'N', '2', '9', 'Q', 'L' ], (mkRat 3 1, mkRat 4 1))]
      ⟨[some [ 'N', '2', '9', 'Q', 'L' ]], (), none, none⟩) :=
  geocode_dataframe_eq_amended
    [([ 'N', '2', '9', 'Q', 'L' ], (mkRat 3 1, mkRat 4 1))]
    ⟨[some [ 'N', '2', '9', 'Q', 'L' ]], (), none, none⟩
    (by decide) (by decide)

/-- If `dropWhile` leaves a nonempty list unchanged, its head fails the
predicate. -/
theorem head_false_of_dropWhile_eq_self {p : Char → Bool} {h : Char}
    {t : List Char} (hd : (h :: t).dropWhile p = h :: t) : p h = false := by
  by_contra hph
  rw [Bool.not_eq_false] at hph
  rw [List.dropWhile_cons_of_pos hph] at hd
  have hlen := congrArg List.length hd
  have hle := (List.dropWhile_sublist (l := t) p).length_le
  simp at hlen
  omega

/-- `dropWhile` leaves a list whose elements all fail the predicate
unchanged. -/
theorem dropWhile_eq_self_of_all_false {p : Char → Bool} {l : List Char}
    (h : ∀ x ∈ l, p x = false) : l.dropWhile p = l := by
  cases l with
  | nil => rfl
  | cons a t =>
    exact List.dropWhile_cons_of_neg (by simp [h a (by simp)])

/-- `dropWhile` does not cross into the second part of an append whose
first part it leaves unchanged and nonempty. -/
theorem dropWhile_append_of_eq_self {p : Char → Bool} {b t : List Char}
    (hb : b.dropWhile p = b) (hne : b ≠ []) :
    (b ++ t).dropWhile p = b ++ t := by
  cases b with
  | nil => exact absurd rfl hne
  | cons h m =>
    have hph := head_false_of_dropWhile_eq_self hb
    rw [List.cons_append]
    exact List.dropWhile_cons_of_neg (by simp [hph])

/-- `str.strip()` of whitespace, a body whose two ends are not whitespace,
and whitespace again, is exactly the body. -/
theorem pyStrip_sandwich {w₁ b w₂ : List Char}
    (h₁ : ∀ x ∈ w₁, pyIsSpace x = true) (h₂ : ∀ x ∈ w₂, pyIsSpace x = true)
    (hb : b.dropWhile pyIsSpace = b)
    (hbr : b.reverse.dropWhile pyIsSpace = b.reverse) (hbne : b ≠ []) :
    pyStrip (w₁ ++ b ++ w₂) = b := by
  unfold pyStrip
  rw [List.append_assoc, List.dropWhile_append_of_pos h₁,
    dropWhile_append_of_eq_self hb hbne, List.reverse_append,
    List.dropWhile_append_of_pos (by intro x hx; exact h₂ x (by simpa using hx)),
    hbr, List.reverse_reverse]

/-- ASCII uppercasing maps no character into or out of the whitespace
class. -/
theorem pyIsSpace_pyToUpper (c : Char) :
    pyIsSpace (pyToUpper c) = pyIsSpace c := by
  unfold pyToUpper
  split <;> rfl

/-- If `dropWhile` whitespace leaves the uppercased list unchanged, it
leaves the list itself unchanged. -/
theorem dropWhile_eq_self_of_pyUpper {b f : List Char}
    (hf : pyUpper b = f) (hd : f.dropWhile pyIsSpace = f) :
    b.dropWhile pyIsSpace = b := by
  cases b with
  | nil => rfl
  | cons h t =>
    have hcons : pyToUpper h :: pyUpper t = f := hf
    rw [← hcons] at hd
    have := head_false_of_dropWhile_eq_self hd
    rw [pyIsSpace_pyToUpper] at this
    exact List.dropWhile_cons_of_neg (by simp [this])

/-- A character that is not whitespace is not the space character. -/
theorem not_space_of_pyIsSpace_false {x : Char} (h : pyIsSpace x = false) :
    (!(x = ' ')) = true := by
  unfold pyIsSpace at h
  simp only [Bool.or_eq_false_iff] at h
  simp [h.1.1.1.1.1]

/-- Removing spaces from an all-nonwhitespace list changes nothing. -/
theorem removeSpaces_eq_self {l : List Char}
    (h : ∀ x ∈ l, pyIsSpace x = false) : removeSpaces l = l :=
  List.filter_eq_self.mpr (fun a ha => not_space_of_pyIsSpace_false (h a ha))

/-- Removing spaces undoes the re-insertion of the space. -/
theorem removeSpaces_spaceVariant {j : Nat} {c : List Char}
    (hns : ∀ x ∈ c, pyIsSpace x = false) :
    removeSpaces (spaceVariant j c) = c := by
  unfold spaceVariant removeSpaces
  rw [List.filter_append, List.filter_cons]
  simp only [decide_True, Bool.not_true, if_neg (by simp : ¬false = true)]
  rw [List.filter_eq_self.mpr
      (fun a ha => not_space_of_pyIsSpace_false (hns a (List.take_subset _ _ ha))),
    List.filter_eq_self.mpr
      (fun a ha => not_space_of_pyIsSpace_false (hns a (List.drop_subset _ _ ha))),
    List.take_append_drop]

/-- `dropWhile` whitespace leaves a space variant of an all-nonwhitespace
core unchanged, provided the part before the inserted space is nonempty. -/
theorem spaceVariant_dropWhile {j : Nat} {c : List Char}
    (hns : ∀ x ∈ c, pyIsSpace x = false) (hj : 1 ≤ c.length - j) :
    (spaceVariant j c).dropWhile pyIsSpace = spaceVariant j c := by
  unfold spaceVariant
  apply dropWhile_append_of_eq_self
  · exact dropWhile_eq_self_of_all_false
      (fun x hx => hns x (List.take_subset _ _ hx))
  · intro hnil
    have := congrArg List.length hnil
    simp [List.length_take] at this
    omega

/-- Same for the reverse of a space variant, provided the part after the
inserted space is nonempty. -/
theorem spaceVariant_reverse_dropWhile {j : Nat} {c : List Char}
    (hns : ∀ x ∈ c, pyIsSpace x = false) (hj1 : 1 ≤ j)
    (hjle : j ≤ c.length) :
    (spaceVariant j c).reverse.dropWhile pyIsSpace =
      (spaceVariant j c).reverse := by
  unfold spaceVariant
  rw [List.reverse_append, List.reverse_cons, List.append_assoc]
  apply dropWhile_append_of_eq_self
  · exact dropWhile_eq_self_of_all_false
      (fun x hx => hns x (List.drop_subset _ _ (by simpa using hx)))
  · intro hnil
    have := congrArg List.length hnil
    simp [List.length_drop] at this
    omega

/-- Input `s` differs from the space-free uppercase core `c` only in
letter case, surrounding whitespace, or one of the supported internal
spacings (none, 3 from the end, 2 from the end). -/
def caseSpaceVariantOf (c s : List Char) : Prop :=
  ∃ w₁ b w₂, s = w₁ ++ b ++ w₂ ∧
    (∀ x ∈ w₁, pyIsSpace x = true) ∧ (∀ x ∈ w₂, pyIsSpace x = true) ∧
    (pyUpper b = c ∨ pyUpper b = spaceVariant 3 c ∨
      pyUpper b = spaceVariant 2 c)

/-- The normalization of any case/whitespace/spacing variant of a
space-free uppercase core of length at least five is the core itself. -/
theorem cleanPostcode_of_caseSpaceVariantOf {c s : List Char}
    (hns : ∀ x ∈ c, pyIsSpace x = false)
    (h5 : 5 ≤ c.length) (hs : caseSpaceVariantOf c s) :
    cleanPostcode s = c := by
  obtain ⟨w₁, b, w₂, rfl, h₁, h₂, hform⟩ := hs
  have hcne : c ≠ [] := by
    intro h
    rw [h] at h5
    simp at h5
  have hfacts :
      (pyUpper b).dropWhile pyIsSpace = pyUpper b ∧
      (pyUpper b).reverse.dropWhile pyIsSpace = (pyUpper b).reverse ∧
      pyUpper b ≠ [] ∧ removeSpaces (pyUpper b) = c := by
    obtain hf | hf | hf := hform
    · refine ⟨?_, ?_, ?_, ?_⟩
      · rw [hf]; exact dropWhile_eq_self_of_all_false hns
      · rw [hf]
        exact dropWhile_eq_self_of_all_false
          (fun x hx => hns x (by simpa using hx))
      · rw [hf]; exact hcne
      · rw [hf]; exact removeSpaces_eq_self hns
    · refine ⟨?_, ?_, ?_, ?_⟩
      · rw [hf]; exact spaceVariant_dropWhile hns (by omega)
      · rw [hf]; exact spaceVariant_reverse_dropWhile hns (by omega) (by omega)
      · rw [hf]
        unfold spaceVariant
        simp
      · rw [hf]; exact removeSpaces_spaceVariant hns
    · refine ⟨?_, ?_, ?_, ?_⟩
      · rw [hf]; exact spaceVariant_dropWhile hns (by omega)
      · rw [hf]; exact spaceVariant_reverse_dropWhile hns (by omega) (by omega)
      · rw [hf]
        unfold spaceVariant
        simp
      · rw [hf]; exact removeSpaces_spaceVariant hns
  obtain ⟨hfd, hfr, hfne, hrm⟩ := hfacts
  have hbd : b.dropWhile pyIsSpace = b := dropWhile_eq_self_of_pyUpper rfl hfd
  have hbr : b.reverse.dropWhile pyIsSpace = b.reverse := by
    apply dropWhile_eq_self_of_pyUpper (f := (pyUpper b).reverse) _ hfr
    exact List.map_reverse pyToUpper b
  have hbne : b ≠ [] := by
    intro h
    rw [h] at hfne
    exact hfne rfl
  unfold cleanPostcode
  rw [pyStrip_sandwich h₁ h₂ hbd hbr hbne, hrm]

/-- Re-inserting a space grows the length by one. -/
theorem spaceVariant_length {j : Nat} {c : List Char} (hj : j ≤ c.length) :
    (spaceVariant j c).length = c.length + 1 := by
  unfold spaceVariant
  simp [List.length_take, List.length_drop]
  omega

/-- A space variant is never the core itself. -/
theorem spaceVariant_ne_self {j : Nat} {c : List Char} (hj : j ≤ c.length) :
    spaceVariant j c ≠ c := by
  intro h
  have := congrArg List.length h
  rw [spaceVariant_length hj] at this
  omega

/-- The two space variants of a space-free core of length at least five
differ (their inserted spaces sit at different positions). -/
theorem spaceVariant_three_ne_two {c : List Char}
    (hns : ∀ x ∈ c, pyIsSpace x = false) (h5 : 5 ≤ c.length) :
    spaceVariant 3 c ≠ spaceVariant 2 c := by
  intro heq
  have h3 : getElem? (spaceVariant 3 c) (c.length - 3) = some ' ' := by
    unfold spaceVariant
    rw [List.getElem?_append_right (by simp [List.length_take])]
    have he : c.length - 3 - (List.take (c.length - 3) c).length = 0 := by
      simp [List.length_take]
    rw [he]
    simp
  have h2 : getElem? (spaceVariant 2 c) (c.length - 3) =
      getElem? c (c.length - 3) := by
    unfold spaceVariant
    rw [List.getElem?_append_left (by simp [List.length_take]; omega)]
    exact List.getElem?_take_of_lt (by omega)
  rw [heq, h2] at h3
  have hmem : (' ' : Char) ∈ c := by
    obtain ⟨hlt, he⟩ := List.getElem?_eq_some_iff.mp h3
    rw [← he]
    exact List.getElem_mem hlt
  have := hns ' ' hmem
  simp [pyIsSpace] at this

/-- Evaluation of the lookup on a nonempty string input. -/
theorem get_coordinates_some (d : PostcodeDict) (s : List Char)
    (hs : s ≠ []) :
    UKPostcodeDataset.get_coordinates d (some s) =
      (match dictGet d (cleanPostcode s) with
      | some v => some v
      | none =>
        if 5 ≤ (cleanPostcode s).length then
          match dictGet d (spaceVariant 3 (cleanPostcode s)) with
          | some v => some v
          | none => dictGet d (spaceVariant 2 (cleanPostcode s))
        else none) := by
  show (if s = [] then none
    else
      let c := cleanPostcode s
      match dictGet d c with
      | some v => some v
      | none =>
        if 5 ≤ c.length then
          match dictGet d (spaceVariant 3 c) with
          | some v => some v
          | none => dictGet d (spaceVariant 2 c)
        else none) = _
  rw [if_neg hs]

/-- Counterexample to C2 as stated: the mapping holds the postcode both
without a space (at one coordinate) and in space-3-from-the-end form (at
another); for the entry stored with the space, even the literally
identical input returns the other entry's coordinate, because the
normalized form matches first. -/
theorem get_coordinates_spacing_counterexample :
    dictGet
      [([ 'N', '2', '9', 'Q', 'L' ], (mkRat 1 1, mkRat 1 1)),
       ([ 'N', '2', ' ', '9', 'Q', 'L' ], (mkRat 2 1, mkRat 2 1))]
      [ 'N', '2', ' ', '9', 'Q', 'L' ] = some (mkRat 2 1, mkRat 2 1) ∧
    caseSpaceVariantOf
      (cleanPostcode [ 'N', '2', ' ', '9', 'Q', 'L' ])
      [ 'N', '2', ' ', '9', 'Q', 'L' ] ∧
    UKPostcodeDataset.get_coordinates
      [([ 'N', '2', '9', 'Q', 'L' ], (mkRat 1 1, mkRat 1 1)),
       ([ 'N', '2', ' ', '9', 'Q', 'L' ], (mkRat 2 1, mkRat 2 1))]
      (some [ 'N', '2', ' ', '9', 'Q', 'L' ]) ≠
      some (mkRat 2 1, mkRat 2 1) :=
  ⟨by decide,
   ⟨[], [ 'N', '2', ' ', '9', 'Q', 'L' ], [], by decide, by decide,
    by decide, Or.inr (Or.inl (by decide))⟩,
   by decide⟩

/-- C2 (amended): let `c` be the space-free uppercase form of a postcode,
of length at least five, and suppose the mapping stores it under exactly
one supported spacing form `k` (no higher-priority spacing form of the
same postcode is a key).  Then every input differing from it only in
letter case, surrounding whitespace or supported internal spacing returns
that entry's coordinate. -/
theorem get_coordinates_spacing_insensitive
    (d : PostcodeDict) (c k s : List Char) (v : Coord)
    (hup : pyUpper c = c)
    (hns : ∀ x ∈ c, pyIsSpace x = false)
    (h5 : 5 ≤ c.length)
    (hk : k = c ∨ k = spaceVariant 3 c ∨ k = spaceVariant 2 c)
    (hv : dictGet d k = some v)
    (h₀ : k ≠ c → dictGet d c = none)
    (h₃ : k ≠ spaceVariant 3 c → dictGet d (spaceVariant 3 c) = none)
    (hs : caseSpaceVariantOf c s) :
    UKPostcodeDataset.get_coordinates d (some s) = some v := by
  have hclean : cleanPostcode s = c :=
    cleanPostcode_of_caseSpaceVariantOf hns h5 hs
  have hsne : s ≠ [] := by
    intro h
    rw [h] at hclean
    have hc : c = [] := by rw [← hclean]; rfl
    rw [hc] at h5
    simp at h5
  rw [get_coordinates_some d s hsne, hclean]
  obtain hk | hk | hk := hk
  · subst hk
    rw [hv]
  · subst hk
    have h0 := h₀ (spaceVariant_ne_self (by omega))
    rw [h0, if_pos h5, hv]
  · subst hk
    have h0 := h₀ (spaceVariant_ne_self (by omega))
    have h3 := h₃ (Ne.symm (spaceVariant_three_ne_two hns h5))
    rw [h0, if_pos h5, h3, hv]

/-- Witness for C2 (amended): the entry is stored in space-3 form only;
an input with extra surrounding whitespace, lower case and the same
internal space resolves to its coordinate. -/
theorem get_coordinates_spacing_insensitive_witness :
    UKPostcodeDataset.get_coordinates
      [([ 'N', '2', ' ', '9', 'Q', 'L' ], (mkRat 2 1, mkRat 7 2))]
      (some [ ' ', 'n', '2', ' ', '9', 'q', 'l' ]) =
      some (mkRat 2 1, mkRat 7 2) :=
  get_coordinates_spacing_insensitive
    [([ 'N', '2', ' ', '9', 'Q', 'L' ], (mkRat 2 1, mkRat 7 2))]
    [ 'N', '2', '9', 'Q', 'L' ]
    [ 'N', '2', ' ', '9', 'Q', 'L' ]
    [ ' ', 'n', '2', ' ', '9', 'q', 'l' ]
    (mkRat 2 1, mkRat 7 2)
    (by decide) (by decide) (by decide)
    (Or.inr (Or.inl (by decide)))
    (by decide)
    (fun _ => by decide)
    (fun h => absurd (by decide) h)
    ⟨[ ' ' ], [ 'n', '2', ' ', '9', 'q', 'l' ], [], by decide, by decide,
     by decide, Or.inr (Or.inl (by decide))⟩
